import Mathlib

/-!
Shallow embedding of the Lysara calling-bot server (src/unnamed/part_000,
first variant, build tag "2026-02-24-clean").  The embedding models the
meeting-join orchestration core: the organizer-identity resolver
(`tryExtractOrganizerOid`), the GUID check (`isGuid`), the duplicate-join
guard (`activeCallsByThreadId`, a JS `Map` modelled as an association list
with insertion-order semantics), the `/join`, `/call/:callId/hangup` and
`/call/:callId` route handlers, and the transcript-selection logic of
`/transcripts`.  External HTTP calls (token acquisition, meeting lookup,
call creation, call deletion, call query) are modelled as oracle inputs:
an `Except` value describing how the upstream answered during the attempt.
JavaScript strings are modelled as Lean `String` at the code-unit level
(ASCII-faithful); `undefined`/`null` fields are modelled as `Option`.
-/

/-- JSON values as produced by `JSON.parse`.  Numbers keep their lexeme and a
precomputed zero flag (only the JS truthiness of a number is ever observed
by the code).  Object member lists keep source order; `JSON.parse` keeps the
last duplicate key, which `jsGetField` reproduces. -/
inductive Json where
  | null
  | bool (b : Bool)
  | num (isZero : Bool) (lexeme : String)
  | str (s : String)
  | arr (elems : List Json)
  | obj (fields : List (String × Json))

/-- JavaScript truthiness of a JSON value (`undefined` is handled separately
as `Option.none` by callers). -/
def jsTruthy : Json → Bool
  | .null => false
  | .bool b => b
  | .num isZero _ => !isZero
  | .str s => s != ""
  | .arr _ => true
  | .obj _ => true

/-- Member lookup on a parsed JSON value, as `ctx?.Oid` behaves: `none` for
non-objects (property access yields `undefined`), last duplicate key wins
(matching `JSON.parse` object construction). -/
def jsGetLastField : List (String × Json) → String → Option Json
  | [], _ => none
  | (k, v) :: rest, key =>
    match jsGetLastField rest key with
    | some w => some w
    | none => if k == key then some v else none

/-- `ctx?.Oid`-style member access. -/
def jsGetField : Json → String → Option Json
  | .obj fields, key => jsGetLastField fields key
  | _, _ => none

/-- Value of a hexadecimal digit, `none` for non-hex characters. -/
def hexVal (c : Char) : Option Nat :=
  if c.isDigit then some (c.toNat - 48)
  else if 'a' ≤ c && c ≤ 'f' then some (c.toNat - 87)
  else if 'A' ≤ c && c ≤ 'F' then some (c.toNat - 55)
  else none

/-- `application/x-www-form-urlencoded` decoding used by `URLSearchParams`:
`+` becomes a space, valid `%XX` escapes are decoded, invalid escapes are
kept literally (the WHATWG parser never throws).  Byte-level model: each
decoded `%XX` becomes the character with that code. -/
def formDecodeAux : List Char → List Char
  | [] => []
  | '+' :: rest => ' ' :: formDecodeAux rest
  | '%' :: h1 :: h2 :: rest =>
    match hexVal h1, hexVal h2 with
    | some a, some b => Char.ofNat (a * 16 + b) :: formDecodeAux rest
    | _, _ => '%' :: formDecodeAux (h1 :: h2 :: rest)
  | c :: rest => c :: formDecodeAux rest

def formDecode (cs : List Char) : String := String.mk (formDecodeAux cs)

/-- `decodeURIComponent`: strict percent-decoding; a `%` not followed by two
hex digits raises `URIError`, modelled as `none`.  (Multi-byte UTF-8
validation is not modelled; inputs of interest are ASCII.) -/
def decodeURIComponentAux : List Char → Option (List Char)
  | [] => some []
  | '%' :: rest =>
    match rest with
    | h1 :: h2 :: rest2 =>
      match hexVal h1, hexVal h2 with
      | some a, some b => (decodeURIComponentAux rest2).map (Char.ofNat (a * 16 + b) :: ·)
      | _, _ => none
    | _ => none
  | c :: rest => (decodeURIComponentAux rest).map (c :: ·)

def decodeURIComponentOpt (s : String) : Option String :=
  (decodeURIComponentAux s.data).map String.mk

/-- Characters allowed in a URL scheme after the leading letter. -/
def isSchemeChar (c : Char) : Bool :=
  c.isAlphanum || c == '+' || c == '-' || c == '.'

/-- The query portion of a URL (after the first `?`, before any `#`),
without its leading `?`; empty when the URL has no query. -/
def queryOf (cs : List Char) : String :=
  let noFrag := cs.takeWhile (fun c => c != '#')
  match noFrag.dropWhile (fun c => c != '?') with
  | [] => ""
  | _ :: q => String.mk q

/-- `new URL(s)` modelled down to what the code observes: parsing fails
(the constructor throws) unless the string starts with a scheme — a letter
followed by scheme characters and a colon; on success the search/query
string is returned. -/
def urlQueryString (s : String) : Option String :=
  match s.data with
  | [] => none
  | c :: rest =>
    if c.isAlpha then
      match (c :: rest).dropWhile isSchemeChar with
      | ':' :: tail => some (queryOf tail)
      | _ => none
    else none

/-- Split a query string at `&` separators. -/
def splitOnAmp : List Char → List (List Char)
  | [] => [[]]
  | c :: rest =>
    let r := splitOnAmp rest
    if c == '&' then [] :: r
    else
      match r with
      | [] => [[c]]
      | h :: t => (c :: h) :: t

/-- One `key=value` segment of a query string, form-decoded; a segment
without `=` is a key with empty value. -/
def queryPairOf (seg : List Char) : String × String :=
  let k := seg.takeWhile (fun c => c != '=')
  let rest := seg.dropWhile (fun c => c != '=')
  let v : List Char := match rest with | [] => [] | _ :: t => t
  (formDecode k, formDecode v)

/-- `url.searchParams.get(name)`: first pair whose decoded key matches,
`none` when absent (empty segments are skipped, as WHATWG does). -/
def searchParamsGet (query : String) (name : String) : Option String :=
  (((splitOnAmp query.data).filter (fun seg => !seg.isEmpty)).map queryPairOf).find?
      (fun p => p.1 == name) |>.map (·.2)

/-- Whitespace skipped by `JSON.parse`. -/
def jsonWs (cs : List Char) : List Char :=
  cs.dropWhile (fun c => c == ' ' || c == '\t' || c == '\n' || c == '\r')

def charLBrace : Char := Char.ofNat 123
def charRBrace : Char := Char.ofNat 125

/-- JSON string body parser (after the opening quote): returns the decoded
string and the input remaining after the closing quote. -/
def parseJStr : Nat → List Char → Option (String × List Char)
  | 0, _ => none
  | _ + 1, [] => none
  | fuel + 1, c :: rest =>
    if c == '"' then some ("", rest)
    else if c == '\\' then
      match rest with
      | [] => none
      | e :: rest2 =>
        if e == '"' then (parseJStr fuel rest2).map (fun p => (String.singleton '"' ++ p.1, p.2))
        else if e == '\\' then (parseJStr fuel rest2).map (fun p => (String.singleton '\\' ++ p.1, p.2))
        else if e == '/' then (parseJStr fuel rest2).map (fun p => (String.singleton '/' ++ p.1, p.2))
        else if e == 'b' then (parseJStr fuel rest2).map (fun p => (String.singleton (Char.ofNat 8) ++ p.1, p.2))
        else if e == 'f' then (parseJStr fuel rest2).map (fun p => (String.singleton (Char.ofNat 12) ++ p.1, p.2))
        else if e == 'n' then (parseJStr fuel rest2).map (fun p => (String.singleton '\n' ++ p.1, p.2))
        else if e == 'r' then (parseJStr fuel rest2).map (fun p => (String.singleton '\r' ++ p.1, p.2))
        else if e == 't' then (parseJStr fuel rest2).map (fun p => (String.singleton '\t' ++ p.1, p.2))
        else if e == 'u' then
          match rest2 with
          | h1 :: h2 :: h3 :: h4 :: rest3 =>
            match hexVal h1, hexVal h2, hexVal h3, hexVal h4 with
            | some a, some b, some c2, some d2 =>
              (parseJStr fuel rest3).map
                (fun p => (String.singleton (Char.ofNat (((a * 16 + b) * 16 + c2) * 16 + d2)) ++ p.1, p.2))
            | _, _, _, _ => none
          | _ => none
        else none
    else if c.toNat < 32 then none
    else (parseJStr fuel rest).map (fun p => (String.singleton c ++ p.1, p.2))

/-- JSON number parser: returns (isZero, lexeme, rest); rejects leading
zeros, requires digits where the grammar does. -/
def parseJNum (cs : List Char) : Option (Bool × String × List Char) :=
  let (negPart, cs1) :=
    match cs with
    | c :: r => if c == '-' then (([c] : List Char), r) else (([] : List Char), cs)
    | [] => (([] : List Char), cs)
  match cs1 with
  | [] => none
  | d :: _ =>
    if !d.isDigit then none
    else
      let ipart := cs1.takeWhile Char.isDigit
      let afterInt := cs1.dropWhile Char.isDigit
      if d == '0' && ipart.length != 1 then none
      else
        let (fracDigits, afterFrac) :=
          match afterInt with
          | '.' :: fr =>
            (fr.takeWhile Char.isDigit, (fr.dropWhile Char.isDigit : List Char))
          | _ => (([] : List Char), afterInt)
        let fracOk :=
          match afterInt with
          | '.' :: fr => !(fr.takeWhile Char.isDigit).isEmpty
          | _ => true
        let fracPart : List Char :=
          match afterInt with
          | '.' :: _ => '.' :: fracDigits
          | _ => []
        if !fracOk then none
        else
          let (expPart, afterExp) :=
            match afterFrac with
            | e :: er =>
              if e == 'e' || e == 'E' then
                let (sgn, er2) :=
                  match er with
                  | s :: er2 => if s == '+' || s == '-' then (([s] : List Char), er2) else (([] : List Char), er)
                  | [] => (([] : List Char), er)
                let ed := er2.takeWhile Char.isDigit
                if ed.isEmpty then (none, afterFrac)
                else (some (e :: sgn ++ ed), (er2.dropWhile Char.isDigit : List Char))
              else (none, afterFrac)
            | [] => (none, afterFrac)
          match expPart, afterExp with
          | some ep, rest2 =>
            some ((ipart ++ fracDigits).all (fun c => c == '0'),
                  String.mk (negPart ++ ipart ++ fracPart ++ ep), rest2)
          | none, _ =>
            if (match afterFrac with
                | e :: _ => e == 'e' || e == 'E'
                | [] => false) then none
            else
              some ((ipart ++ fracDigits).all (fun c => c == '0'),
                    String.mk (negPart ++ ipart ++ fracPart), afterFrac)

mutual

/-- JSON value parser (fueled recursive descent, as `JSON.parse`). -/
def parseJVal : Nat → List Char → Option (Json × List Char)
  | 0, _ => none
  | fuel + 1, cs =>
    match jsonWs cs with
    | [] => none
    | c :: rest =>
      if c == '"' then (parseJStr fuel rest).map (fun p => (Json.str p.1, p.2))
      else if c == charLBrace then (parseJObj fuel rest).map (fun p => (Json.obj p.1, p.2))
      else if c == '[' then (parseJArr fuel rest).map (fun p => (Json.arr p.1, p.2))
      else if c == 't' then
        match rest with
        | 'r' :: 'u' :: 'e' :: r2 => some (Json.bool true, r2)
        | _ => none
      else if c == 'f' then
        match rest with
        | 'a' :: 'l' :: 's' :: 'e' :: r2 => some (Json.bool false, r2)
        | _ => none
      else if c == 'n' then
        match rest with
        | 'u' :: 'l' :: 'l' :: r2 => some (Json.null, r2)
        | _ => none
      else
        (parseJNum (c :: rest)).map (fun p => (Json.num p.1 p.2.1, p.2.2))

/-- Array body after `[`: empty array or a non-empty element list. -/
def parseJArr : Nat → List Char → Option (List Json × List Char)
  | 0, _ => none
  | fuel + 1, cs =>
    match jsonWs cs with
    | ']' :: r => some ([], r)
    | cs1 => parseJArrCont fuel cs1

/-- Non-empty array element list: a value, then `,` and more or `]`. -/
def parseJArrCont : Nat → List Char → Option (List Json × List Char)
  | 0, _ => none
  | fuel + 1, cs =>
    match parseJVal fuel cs with
    | none => none
    | some (v, rest) =>
      match jsonWs rest with
      | ',' :: r2 =>
        match parseJArrCont fuel r2 with
        | some (vs, r3) => some (v :: vs, r3)
        | none => none
      | ']' :: r2 => some ([v], r2)
      | _ => none

/-- Object body after the opening brace: empty object or member list. -/
def parseJObj : Nat → List Char → Option (List (String × Json) × List Char)
  | 0, _ => none
  | fuel + 1, cs =>
    match jsonWs cs with
    | c :: r =>
      if c == charRBrace then some ([], r)
      else parseJObjCont fuel (c :: r)
    | [] => none

/-- Non-empty object member list: a `"key": value` member, then `,` and
more or the closing brace. -/
def parseJObjCont : Nat → List Char → Option (List (String × Json) × List Char)
  | 0, _ => none
  | fuel + 1, cs =>
    match jsonWs cs with
    | '"' :: r =>
      match parseJStr fuel r with
      | none => none
      | some (key, rest) =>
        match jsonWs rest with
        | ':' :: r2 =>
          match parseJVal fuel r2 with
          | none => none
          | some (v, rest2) =>
            match jsonWs rest2 with
            | ',' :: r3 =>
              match parseJObjCont fuel r3 with
              | some (ms, r4) => some ((key, v) :: ms, r4)
              | none => none
            | c2 :: r3 =>
              if c2 == charRBrace then some ([(key, v)], r3) else none
            | [] => none
        | _ => none
    | _ => none

end

/-- `JSON.parse`: parse one value and require only whitespace to remain. -/
def jsonParse (s : String) : Option Json :=
  match parseJVal (s.length + 2) s.data with
  | some (v, rest) => if (jsonWs rest).isEmpty then some v else none
  | none => none

/-- `tryExtractOrganizerOid` (src/unnamed/part_000 lines 57-67): parse the
join link as a URL, read its `context` query parameter, `decodeURIComponent`
it, `JSON.parse` the result and return `ctx?.Oid || null`; any throw is
caught and yields `null` (`none`).  Pure function of the link string. -/
def tryExtractOrganizerOid (joinWebUrl : String) : Option Json :=
  match urlQueryString joinWebUrl with
  | none => none
  | some q =>
    match searchParamsGet q "context" with
    | none => none
    | some contextParam =>
      match decodeURIComponentOpt contextParam with
      | none => none
      | some decoded =>
        match jsonParse decoded with
        | none => none
        | some ctx =>
          match jsGetField ctx "Oid" with
          | none => none
          | some v => if jsTruthy v then some v else none

/-- `isGuid` (lines 87-89): `/^[0-9a-fA-F-]{36}$/` — exactly 36 characters,
each a hex digit or hyphen. -/
def isGuid (s : String) : Bool :=
  s.length == 36 &&
    s.data.all (fun c =>
      c.isDigit || ('a' ≤ c && c ≤ 'f') || ('A' ≤ c && c ≤ 'F') || c == '-')

/-- Truthiness of an optional JS string (`undefined`/`null` map to `none`):
`!s` is true exactly when the value is absent or the empty string. -/
def strOptTruthy (o : Option String) : Bool := o.getD "" != ""

/-- `x || null` on an optional JS string: falsy values (absent or empty)
become `null` (`none`). -/
def strOrNull (o : Option String) : Option String :=
  if strOptTruthy o then o else none

/-- The in-memory duplicate-join guard `activeCallsByThreadId` (line 9): a
JS `Map` from threadId to callId, modelled as an association list in
insertion order. -/
abbrev Guard := List (String × String)

/-- `Map.prototype.get`: value of the first (only) entry with this key. -/
def guardGet (g : Guard) (threadId : String) : Option String :=
  (g.find? (fun p => p.1 == threadId)).map (·.2)

/-- `Map.prototype.has`. -/
def guardHas (g : Guard) (threadId : String) : Bool :=
  g.any (fun p => p.1 == threadId)

/-- `Map.prototype.set`: replace in place when the key exists, otherwise
append at the end (JS Maps keep insertion order). -/
def guardSet (g : Guard) (threadId callId : String) : Guard :=
  if guardHas g threadId then
    g.map (fun p => if p.1 == threadId then (threadId, callId) else p)
  else g ++ [(threadId, callId)]

/-- The hangup scan (lines 244-249): iterate entries in insertion order and
delete the first entry whose value equals `callId`, then break. -/
def guardDeleteFirstByCall : Guard → String → Guard
  | [], _ => []
  | (t, c) :: rest, callId =>
    if c == callId then rest
    else (t, c) :: guardDeleteFirstByCall rest callId

/-- An upstream (axios / credential) failure as the catch blocks observe it:
`e?.response?.status`, `e?.response?.data` and `e.message`. -/
structure UpstreamErr where
  status : Option Nat
  data : Option Json
  message : String

/-- `e?.response?.data || e.message`: the error body the handlers return. -/
def errBody (e : UpstreamErr) : Json :=
  match e.data with
  | some d => if jsTruthy d then d else Json.str e.message
  | none => Json.str e.message

/-- The meeting record fields the `/join` handler reads from the located
`onlineMeeting`: `id`, `subject`, `chatInfo.threadId`,
`joinMeetingIdSettings.joinMeetingId` and `joinMeetingIdSettings.passcode`
(each possibly absent). -/
structure Meeting where
  id : Option String
  subject : Option String
  threadId : Option String
  joinMeetingId : Option String
  passcode : Option String

/-- The meeting-addressing part of the call-creation payload: either
`joinMeetingIdMeetingInfo` (lobby-style) with a `passcode` field that is
always present (`none` models JSON `null`), or `organizerMeetingInfo`
with the organizer identity, the organizer tenant and
`allowConversationWithoutHost`. -/
inductive MeetingInfo where
  | joinMeetingIdInfo (joinMeetingId : String) (passcode : Option String)
  | organizerInfo (organizerId : Json) (organizerTenantId : String)
      (allowConversationWithoutHost : Bool)

/-- The `POST /communications/calls` payload built by `/join` (lines
173-206).  `chatInfo` is `(threadId, messageId)` and present only in the
organizer-style payload; both shapes request audio-only media hosted by
the service and carry the configured callback URI and tenant. -/
structure CallPayload where
  callbackUri : String
  requestedModalities : List String
  serviceHostedMedia : Bool
  chatInfo : Option (String × String)
  meetingInfo : MeetingInfo
  tenantId : String

/-- Join-strategy selection and payload construction (lines 168-206): the
lobby-style payload when `joinMeetingIdSettings.joinMeetingId` is truthy
(present and non-empty), with `passcode ?? null`; otherwise the
organizer-style payload addressed by `threadId` with `messageId: "0"`,
the organizer identity, the configured tenant and
`allowConversationWithoutHost: true`. -/
def buildJoinPayload (tenantId callbackUri : String) (m : Meeting)
    (organizerUserId : Json) (threadId : String) : CallPayload :=
  if strOptTruthy m.joinMeetingId then
    { callbackUri := callbackUri
      requestedModalities := ["audio"]
      serviceHostedMedia := true
      chatInfo := none
      meetingInfo := MeetingInfo.joinMeetingIdInfo (m.joinMeetingId.getD "") m.passcode
      tenantId := tenantId }
  else
    { callbackUri := callbackUri
      requestedModalities := ["audio"]
      serviceHostedMedia := true
      chatInfo := some (threadId, "0")
      meetingInfo := MeetingInfo.organizerInfo organizerUserId tenantId true
      tenantId := tenantId }

/-- Result of one `POST /join` request, by response shape. -/
inductive JoinOutcome where
  | missingUrl
  | invalidLink
  | meetingNotFound
  | missingThreadId (meetingId : Option String)
  | duplicate (existingCallId : String) (threadId : String)
  | upstreamError (body : Json)
  | success (organizerUserIdUsed : Json) (meetingId : Option String)
      (subject : Option String) (threadId : String) (callId : String)

/-- Environment of one `/join` request: configuration plus how the external
collaborators answer during this attempt.  `foundMeeting` is the
`findOnlineMeeting` result (that helper catches its own errors and returns
`meeting: null` on failure); `createCallResult` is how
`POST /communications/calls` answers, carrying the created call id on
success (the Graph call resource always carries an id). -/
structure JoinEnv where
  tenantId : String
  callbackUri : String
  tokenResult : Except UpstreamErr String
  foundMeeting : Option Meeting
  createCallResult : Except UpstreamErr String

/-- The `POST /join` handler (lines 125-228).  Returns the response
outcome, the guard after the request, and the call-creation payload that
was submitted upstream (`none` when no call-creation request was issued
during the attempt).  The duplicate-join guard check (lines 159-166) sits
strictly before the call-creation request (line 208), and
`activeCallsByThreadId.set` (line 213) strictly after its success. -/
def joinHandler (env : JoinEnv) (g : Guard) (body : Option String) :
    JoinOutcome × Guard × Option CallPayload :=
  match body with
  | none => (.missingUrl, g, none)
  | some joinWebUrl =>
    if joinWebUrl == "" then (.missingUrl, g, none)
    else
      match tryExtractOrganizerOid joinWebUrl with
      | none => (.invalidLink, g, none)
      | some organizerUserId =>
        match env.tokenResult with
        | .error e => (.upstreamError (errBody e), g, none)
        | .ok _ =>
          match env.foundMeeting with
          | none => (.meetingNotFound, g, none)
          | some meeting =>
            match meeting.threadId with
            | none => (.missingThreadId meeting.id, g, none)
            | some threadId =>
              if threadId == "" then (.missingThreadId meeting.id, g, none)
              else
                match guardGet g threadId with
                | some existingCallId => (.duplicate existingCallId threadId, g, none)
                | none =>
                  let payload :=
                    buildJoinPayload env.tenantId env.callbackUri meeting
                      organizerUserId threadId
                  match env.createCallResult with
                  | .error e => (.upstreamError (errBody e), g, some payload)
                  | .ok callId =>
                    (.success organizerUserId meeting.id (strOrNull meeting.subject)
                        threadId callId,
                     guardSet g threadId callId, some payload)

/-- Result of one `POST /call/:callId/hangup` request. -/
inductive HangupOutcome where
  | invalidCallId
  | upstreamError (body : Json)
  | ok (callId : String)

/-- Environment of one hangup request: token acquisition and the upstream
answer to `DELETE /communications/calls/:callId`. -/
structure HangupEnv where
  tokenResult : Except UpstreamErr String
  deleteResult : Except UpstreamErr Unit

/-- The `POST /call/:callId/hangup` handler (lines 231-255): validate the
GUID shape, issue the DELETE, and only after its success scan the guard and
remove the first entry whose value is this callId.  Any throw (token or
DELETE) lands in the catch block, which returns a 500 error without
touching the guard. -/
def hangupHandler (env : HangupEnv) (g : Guard) (callId : String) :
    HangupOutcome × Guard :=
  if !isGuid callId then (.invalidCallId, g)
  else
    match env.tokenResult with
    | .error e => (.upstreamError (errBody e), g)
    | .ok _ =>
      match env.deleteResult with
      | .error e => (.upstreamError (errBody e), g)
      | .ok _ => (.ok callId, guardDeleteFirstByCall g callId)

/-- The call-state fields `GET /call/:callId` reads from the upstream call
resource. -/
structure CallData where
  id : Option String
  state : Option String
  terminationReason : Option String

/-- Result of one `GET /call/:callId` request.  `notFoundOrEnded` models
the `404 {ok: true, state: "not_found_or_ended"}` response, a non-error
body with the synthetic state. -/
inductive GetStateOutcome where
  | invalidCallId
  | okState (id : Option String) (state : Option String)
      (terminationReason : Option String)
  | notFoundOrEnded
  | upstreamError (body : Json)

/-- The `GET /call/:callId` handler (lines 258-280): validate the GUID
shape, query the call; in the catch block an upstream status of 404 maps to
the synthetic `not_found_or_ended` success body, every other failure to a
500 error carrying `e?.response?.data || e.message`. -/
def getStateHandler (tokenResult : Except UpstreamErr String)
    (getResult : Except UpstreamErr CallData) (callId : String) :
    GetStateOutcome :=
  if !isGuid callId then .invalidCallId
  else
    match tokenResult with
    | .error e =>
      if e.status == some 404 then .notFoundOrEnded
      else .upstreamError (errBody e)
    | .ok _ =>
      match getResult with
      | .error e =>
        if e.status == some 404 then .notFoundOrEnded
        else .upstreamError (errBody e)
      | .ok d => .okState d.id d.state (strOrNull d.terminationReason)

/-- A transcript entry as `GET /transcripts` reads it from the Graph list:
an `id` and a `createdDateTime` (ISO-8601 string, possibly absent). -/
structure Transcript where
  id : Option String
  createdDateTime : Option String
deriving DecidableEq

/-- The sort key: `t.createdDateTime || ""` (absent or empty timestamps
compare as the empty string). -/
def tsKey (t : Transcript) : String := t.createdDateTime.getD ""

/-- Code-point lexicographic "less or equal" on character lists, modelling
`a.localeCompare(b) <= 0`; locale collation agrees with code-point order on
the ISO-8601 timestamp alphabet. -/
def lexLeChars : List Char → List Char → Bool
  | [], _ => true
  | _ :: _, [] => false
  | a :: as, b :: bs =>
    if a < b then true
    else if b < a then false
    else lexLeChars as bs

/-- String comparison used by the transcript sort comparator. -/
def keyLe (a b : String) : Bool := lexLeChars a.data b.data

/-- One step of the stable ascending sort: insert an element before the
first already-placed element that is not strictly smaller.  (JS
`Array.prototype.sort` is a stable sort; any stable insertion realises the
same permutation for a consistent comparator.) -/
def insertAsc (x : Transcript) : List Transcript → List Transcript
  | [] => [x]
  | b :: t =>
    if keyLe (tsKey x) (tsKey b) then x :: b :: t
    else b :: insertAsc x t

/-- `transcripts.sort((a, b) => (a.createdDateTime || "").localeCompare(b.createdDateTime || ""))`
(line 320): stable ascending sort by timestamp key. -/
def sortTranscripts : List Transcript → List Transcript
  | [] => []
  | x :: xs => insertAsc x (sortTranscripts xs)

/-- `.pop()`: the last element of a list, if any. -/
def getLastOpt : List Transcript → Option Transcript
  | [] => none
  | [a] => some a
  | _ :: b :: t => getLastOpt (b :: t)

/-- Lines 319-321: the transcript the endpoint selects — stable-sort
ascending by `createdDateTime || ""`, then take the last element. -/
def selectLatest (l : List Transcript) : Option Transcript :=
  getLastOpt (sortTranscripts l)

/-- Reference selector: the last element of the original list attaining the
maximal timestamp key (later entries win ties). -/
def pickLastMax : List Transcript → Option Transcript
  | [] => none
  | x :: xs =>
    match pickLastMax xs with
    | none => some x
    | some m => if keyLe (tsKey x) (tsKey m) then some m else some x

/-- Guard states reachable from the empty registry by any sequence of the
four public operations.  `GET /call/:callId` and `GET /transcripts` never
read or write `activeCallsByThreadId` (their handlers take no guard
argument), so they leave the guard unchanged. -/
inductive Reachable : Guard → Prop where
  | init : Reachable []
  | joinStep {g : Guard} (env : JoinEnv) (body : Option String) :
      Reachable g → Reachable (joinHandler env g body).2.1
  | hangupStep {g : Guard} (env : HangupEnv) (callId : String) :
      Reachable g → Reachable (hangupHandler env g callId).2
  | getStateStep {g : Guard} (tokenResult : Except UpstreamErr String)
      (getResult : Except UpstreamErr CallData) (callId : String) :
      Reachable g → Reachable g
  | transcriptsStep {g : Guard} (transcripts : List Transcript) :
      Reachable g → Reachable g

/-- The threadId keys currently registered in the guard. -/
def guardKeys (g : Guard) : List String := g.map Prod.fst

/-- Ordering relation of the transcript sort, as a proposition. -/
def RelTs (a b : Transcript) : Prop := keyLe (tsKey a) (tsKey b) = true

/-- A join link whose `context` parameter decodes to `{"Oid":"o-1"}`. -/
def linkA : String := "https://x/y?context=%7B%22Oid%22%3A%22o-1%22%7D"

/-- A join link whose `context` parameter decodes to `{"Oid":"xyz"}` — a
truthy organizer identifier that is not GUID-shaped. -/
def linkXyz : String := "https://x/y?context=%7B%22Oid%22%3A%22xyz%22%7D"

/-- A canonical GUID-shaped call id. -/
def guid0 : String := "00000000-0000-0000-0000-000000000000"

/-- Meeting record with threadId `T1` and no lobby credentials. -/
def meetingA : Meeting := ⟨some "m1", none, some "T1", none, none⟩

/-- Meeting record with lobby credentials and no passcode. -/
def meetingLobby : Meeting := ⟨some "m2", none, some "T2", some "123456789", none⟩

/-- Meeting record with threadId `T9`, used with the non-GUID link. -/
def meetingX : Meeting := ⟨some "m1", none, some "T9", none, none⟩

/-- Upstream 404 as axios reports it. -/
def errNotFound : UpstreamErr := ⟨some 404, none, "Request failed with status code 404"⟩

/-- A non-404 upstream failure. -/
def errBad : UpstreamErr := ⟨some 400, none, "Request failed with status code 400"⟩

/-- Join environment used when the guard already holds the threadId. -/
def envDupJoin : JoinEnv :=
  ⟨"tenant-1", "https://cb/api/calling", .ok "tk", some meetingA, .ok "c-2"⟩

/-- Join environment whose call-creation request fails upstream. -/
def envCreateFail : JoinEnv :=
  ⟨"tenant-1", "https://cb/api/calling", .ok "tk", some meetingA, .error errBad⟩

/-- Join environment for the non-GUID organizer-identity run. -/
def envJoinXyz : JoinEnv :=
  ⟨"tenant-1", "https://cb/api/calling", .ok "tk", some meetingX, .ok "c9"⟩

/-- Hangup environment whose DELETE is answered with upstream 404. -/
def envHangup404 : HangupEnv := ⟨.ok "tk", .error errNotFound⟩

/-- A guard already holding threadId `T1`. -/
def gDup : Guard := [("T1", "c-1")]

/-- C4: for every located meeting record, join-strategy selection is decided
in priority order — a truthy `joinMeetingId` yields the lobby-style payload
addressed by that `joinMeetingId` with a `passcode` field always present
(the record's passcode, or `null` when absent); otherwise the payload is
addressed by `threadId` with a zero message reference, the organizer
identity, the configured tenant, and `allowConversationWithoutHost`. -/
theorem join_strategy_selection (tenantId callbackUri : String) (m : Meeting)
    (oid : Json) (tid : String) :
    (∀ j, m.joinMeetingId = some j → j ≠ "" →
      buildJoinPayload tenantId callbackUri m oid tid =
        { callbackUri := callbackUri, requestedModalities := ["audio"],
          serviceHostedMedia := true, chatInfo := none,
          meetingInfo := MeetingInfo.joinMeetingIdInfo j m.passcode,
          tenantId := tenantId }) ∧
    (strOptTruthy m.joinMeetingId = false →
      buildJoinPayload tenantId callbackUri m oid tid =
        { callbackUri := callbackUri, requestedModalities := ["audio"],
          serviceHostedMedia := true, chatInfo := some (tid, "0"),
          meetingInfo := MeetingInfo.organizerInfo oid tenantId true,
          tenantId := tenantId }) := by
  constructor
  · intro j hj hne
    have ht : strOptTruthy (some j) = true := by
      simp [strOptTruthy, hne]
    simp [buildJoinPayload, hj, ht]
  · intro hf
    simp [buildJoinPayload, hf]

/-- Witness for C4: a record with `joinMeetingId = "123456789"` and no
passcode produces the lobby payload with `passcode` present and null. -/
theorem join_strategy_selection_witness :
    buildJoinPayload "tenant-1" "https://cb/api/calling" meetingLobby
        (Json.str "o-1") "T2" =
      { callbackUri := "https://cb/api/calling", requestedModalities := ["audio"],
        serviceHostedMedia := true, chatInfo := none,
        meetingInfo := MeetingInfo.joinMeetingIdInfo "123456789" none,
        tenantId := "tenant-1" } :=
  (join_strategy_selection "tenant-1" "https://cb/api/calling" meetingLobby
      (Json.str "o-1") "T2").1 "123456789" rfl (by decide)

/-- C5: for a GUID-shaped callId, `getState` maps an upstream 404 to the
non-error synthetic `not_found_or_ended` result, and every other upstream
failure to the 500 error carrying the upstream payload. -/
theorem getState_upstream_notFound_mapping (t : String)
    (getResult : Except UpstreamErr CallData) (cid : String) (e : UpstreamErr)
    (hg : isGuid cid = true) (he : getResult = .error e) :
    (e.status = some 404 →
      getStateHandler (.ok t) getResult cid = .notFoundOrEnded) ∧
    (e.status ≠ some 404 →
      getStateHandler (.ok t) getResult cid = .upstreamError (errBody e)) := by
  subst he
  constructor
  · intro h404
    simp [getStateHandler, hg, h404]
  · intro hne
    simp [getStateHandler, hg, hne]

/-- Witness for C5: a 404-reported callId yields the synthetic state. -/
theorem getState_upstream_notFound_mapping_witness :
    getStateHandler (.ok "tk") (.error errNotFound) guid0 =
      GetStateOutcome.notFoundOrEnded :=
  (getState_upstream_notFound_mapping "tk" (.error errNotFound) guid0 errNotFound
      (by decide) rfl).1 rfl

/-- Counterexample for C6: the hangup handler has no 404 special case — an
upstream not-found on the DELETE is returned as a 500 upstream error, not
as an already-terminated success, and the guard entry survives. -/
theorem hangup_notFound_counterexample :
    hangupHandler envHangup404 gDup guid0 =
      (HangupOutcome.upstreamError
         (Json.str "Request failed with status code 404"), gDup) := by
  rfl

/-- C6 amended: every upstream failure of the termination DELETE, an
upstream not-found included, propagates as an upstream error (HTTP 500)
and leaves the guard unchanged; there is no already-terminated success
mapping in hangup. -/
theorem hangup_upstream_failure_propagates (env : HangupEnv) (g : Guard)
    (cid t : String) (e : UpstreamErr) (hg : isGuid cid = true)
    (ht : env.tokenResult = .ok t) (hd : env.deleteResult = .error e) :
    hangupHandler env g cid = (.upstreamError (errBody e), g) := by
  simp [hangupHandler, hg, ht, hd]

/-- Witness for the amended C6. -/
theorem hangup_upstream_failure_propagates_witness :
    hangupHandler envHangup404 [] guid0 =
      (HangupOutcome.upstreamError
         (Json.str "Request failed with status code 404"), []) :=
  hangup_upstream_failure_propagates envHangup404 [] guid0 "tk" errNotFound
    (by decide) rfl rfl

/-- C1: when the resolved meeting's threadId already has a guard entry, the
join attempt fails with the duplicate error carrying the existing callId
and that threadId, the guard is untouched, and no call-creation request is
issued (the guard check sits strictly before the call-creation POST). -/
theorem join_duplicate_blocked (env : JoinEnv) (g : Guard) (u : String)
    (oid : Json) (m : Meeting) (tid c t : String)
    (hu : u ≠ "") (hoid : tryExtractOrganizerOid u = some oid)
    (ht : env.tokenResult = .ok t) (hm : env.foundMeeting = some m)
    (htid : m.threadId = some tid) (htne : tid ≠ "")
    (hdup : guardGet g tid = some c) :
    joinHandler env g (some u) = (.duplicate c tid, g, none) := by
  simp [joinHandler, hu, hoid, ht, hm, htid, htne, hdup]

/-- Witness for C1: with `T1` already registered, a link resolving to `T1`
is rejected with the existing callId and no payload is submitted. -/
theorem join_duplicate_blocked_witness :
    joinHandler envDupJoin gDup (some linkA) =
      (JoinOutcome.duplicate "c-1" "T1", gDup, none) :=
  join_duplicate_blocked envDupJoin gDup linkA (Json.str "o-1") meetingA
    "T1" "c-1" "tk" (by decide) rfl rfl rfl rfl (by decide) rfl

/-- Counterexample for C8: the organizer identity `"xyz"` extracted from a
join link is not GUID-shaped, yet the join proceeds and uses it — the
response reports it as used and the submitted payload embeds it; no
GUID-shape rejection happens. -/
theorem join_nonGuid_organizer_counterexample :
    tryExtractOrganizerOid linkXyz = some (Json.str "xyz") ∧
    isGuid "xyz" = false ∧
    joinHandler envJoinXyz [] (some linkXyz) =
      (JoinOutcome.success (Json.str "xyz") (some "m1") none "T9" "c9",
       [("T9", "c9")],
       some { callbackUri := "https://cb/api/calling",
              requestedModalities := ["audio"], serviceHostedMedia := true,
              chatInfo := some ("T9", "0"),
              meetingInfo := MeetingInfo.organizerInfo (Json.str "xyz")
                "tenant-1" true,
              tenantId := "tenant-1" }) :=
  ⟨rfl, rfl, rfl⟩

/-- C8 amended: no GUID-shape validation is applied to the organizer
identity — whatever truthy `Oid` the resolver extracts is used as-is for
the lookup and the join payload (`isGuid` gates only the callId parameters
of getState and hangup). -/
theorem join_uses_organizer_identity_unvalidated (env : JoinEnv) (g : Guard)
    (u t cid tid : String) (oid : Json) (m : Meeting)
    (hu : u ≠ "") (hoid : tryExtractOrganizerOid u = some oid)
    (ht : env.tokenResult = .ok t) (hm : env.foundMeeting = some m)
    (htid : m.threadId = some tid) (htne : tid ≠ "")
    (hfresh : guardGet g tid = none) (hcc : env.createCallResult = .ok cid) :
    joinHandler env g (some u) =
      (.success oid m.id (strOrNull m.subject) tid cid, guardSet g tid cid,
       some (buildJoinPayload env.tenantId env.callbackUri m oid tid)) := by
  simp [joinHandler, hu, hoid, ht, hm, htid, htne, hfresh, hcc]

/-- Witness for the amended C8: the non-GUID identity `"xyz"` flows through
unvalidated. -/
theorem join_uses_organizer_identity_unvalidated_witness :
    joinHandler envJoinXyz [] (some linkXyz) =
      (JoinOutcome.success (Json.str "xyz") (some "m1") none "T9" "c9",
       [("T9", "c9")],
       some (buildJoinPayload "tenant-1" "https://cb/api/calling" meetingX
              (Json.str "xyz") "T9")) :=
  join_uses_organizer_identity_unvalidated envJoinXyz [] linkXyz "tk" "c9"
    "T9" (Json.str "xyz") meetingX (by decide) rfl rfl rfl rfl (by decide)
    rfl rfl

/-- C7: the organizer-identity resolver, case by case — it fails (returns
`null`) when the URL is malformed, when the `context` parameter is absent,
when `decodeURIComponent` throws, when the decoded value is not valid
JSON, when the `Oid` member is missing, and when the `Oid` value is falsy
(the empty string included); when `Oid` holds a non-empty string it
returns exactly that value.  Being a Lean function of the link string, it
is pure and deterministic. -/
theorem tryExtractOrganizerOid_cases (link : String) :
    (urlQueryString link = none → tryExtractOrganizerOid link = none) ∧
    (∀ q, urlQueryString link = some q →
      searchParamsGet q "context" = none → tryExtractOrganizerOid link = none) ∧
    (∀ q c, urlQueryString link = some q →
      searchParamsGet q "context" = some c →
      decodeURIComponentOpt c = none → tryExtractOrganizerOid link = none) ∧
    (∀ q c d, urlQueryString link = some q →
      searchParamsGet q "context" = some c →
      decodeURIComponentOpt c = some d → jsonParse d = none →
      tryExtractOrganizerOid link = none) ∧
    (∀ q c d ctx, urlQueryString link = some q →
      searchParamsGet q "context" = some c →
      decodeURIComponentOpt c = some d → jsonParse d = some ctx →
      jsGetField ctx "Oid" = none → tryExtractOrganizerOid link = none) ∧
    (∀ q c d ctx v, urlQueryString link = some q →
      searchParamsGet q "context" = some c →
      decodeURIComponentOpt c = some d → jsonParse d = some ctx →
      jsGetField ctx "Oid" = some v → jsTruthy v = false →
      tryExtractOrganizerOid link = none) ∧
    (∀ q c d ctx s, urlQueryString link = some q →
      searchParamsGet q "context" = some c →
      decodeURIComponentOpt c = some d → jsonParse d = some ctx →
      jsGetField ctx "Oid" = some (Json.str s) → s ≠ "" →
      tryExtractOrganizerOid link = some (Json.str s)) := by
  refine ⟨?_, ?_, ?_, ?_, ?_, ?_, ?_⟩ <;> intros <;>
    simp_all [tryExtractOrganizerOid, jsTruthy]

/-- Witness for C7: the success case on a concrete well-formed link. -/
theorem tryExtractOrganizerOid_cases_witness :
    tryExtractOrganizerOid linkA = some (Json.str "o-1") :=
  (tryExtractOrganizerOid_cases linkA).2.2.2.2.2.2
    "context=%7B%22Oid%22%3A%22o-1%22%7D"
    "\x7b\"Oid\":\"o-1\"\x7d" "\x7b\"Oid\":\"o-1\"\x7d"
    (Json.obj [("Oid", Json.str "o-1")]) "o-1" rfl rfl rfl rfl rfl
    (by decide)

/-- The guard after a join attempt is either untouched or extended by a
registration, and registration only happens for a threadId that was free
at the check and only after the call-creation request succeeded. -/
theorem joinHandler_guard_shape (env : JoinEnv) (g : Guard)
    (body : Option String) :
    (joinHandler env g body).2.1 = g ∨
    ∃ tid cid, guardGet g tid = none ∧ env.createCallResult = Except.ok cid ∧
      (joinHandler env g body).2.1 = guardSet g tid cid := by
  unfold joinHandler
  rcases body with _ | u
  · exact Or.inl rfl
  · dsimp only
    split
    · exact Or.inl rfl
    · split
      · exact Or.inl rfl
      · split
        · exact Or.inl rfl
        · split
          · exact Or.inl rfl
          · split
            · exact Or.inl rfl
            · split
              · exact Or.inl rfl
              · split
                · exact Or.inl rfl
                · split
                  · exact Or.inl rfl
                  · right
                    refine ⟨_, _, ?_, ?_, rfl⟩ <;> assumption

/-- The guard after a hangup attempt is either untouched or has the first
entry matching the callId removed, the latter only after the DELETE
succeeded. -/
theorem hangupHandler_guard_shape (env : HangupEnv) (g : Guard)
    (cid : String) :
    (hangupHandler env g cid).2 = g ∨
    (env.deleteResult = Except.ok () ∧
      (hangupHandler env g cid).2 = guardDeleteFirstByCall g cid) := by
  obtain ⟨tok, del⟩ := env
  cases hg : isGuid cid with
  | false => left; simp [hangupHandler, hg]
  | true =>
    rcases tok with e | t
    · left; simp [hangupHandler, hg]
    · rcases del with e | u
      · left; simp [hangupHandler, hg]
      · cases u
        right
        exact ⟨rfl, by simp [hangupHandler, hg]⟩

/-- C2: if the external request of a join (the call-creation POST) or of a
hangup (the termination DELETE) fails upstream, the JoinGuard map is left
exactly as it was before the operation — a failed call-creation never
registers an entry, a failed hangup never removes one. -/
theorem guard_unchanged_on_upstream_failure :
    (∀ (env : JoinEnv) (g : Guard) (body : Option String) (e : UpstreamErr),
      env.createCallResult = Except.error e →
      (joinHandler env g body).2.1 = g) ∧
    (∀ (env : HangupEnv) (g : Guard) (cid : String) (e : UpstreamErr),
      env.deleteResult = Except.error e →
      (hangupHandler env g cid).2 = g) := by
  constructor
  · intro env g body e he
    rcases joinHandler_guard_shape env g body with h | ⟨tid, cid, _, hcc, _⟩
    · exact h
    · rw [he] at hcc
      exact absurd hcc (by simp)
  · intro env g cid e he
    rcases hangupHandler_guard_shape env g cid with h | ⟨hdel, _⟩
    · exact h
    · rw [he] at hdel
      exact absurd hdel (by simp)

/-- Witness for C2: a concrete failed call-creation and a concrete failed
hangup both leave a concrete guard untouched. -/
theorem guard_unchanged_on_upstream_failure_witness :
    (joinHandler envCreateFail [] (some linkA)).2.1 = [] ∧
    (hangupHandler envHangup404 gDup guid0).2 = gDup :=
  ⟨guard_unchanged_on_upstream_failure.1 envCreateFail [] (some linkA)
      errBad rfl,
   guard_unchanged_on_upstream_failure.2 envHangup404 gDup guid0
      errNotFound rfl⟩

/-- `Map.get` returning nothing means no entry has that key. -/
theorem guardGet_none_iff (g : Guard) (tid : String) :
    guardGet g tid = none ↔ ∀ p ∈ g, p.1 ≠ tid := by
  simp [guardGet, List.find?_eq_none]

/-- A threadId with no entry is not among the guard keys. -/
theorem guardGet_none_not_mem {g : Guard} {tid : String}
    (h : guardGet g tid = none) : tid ∉ guardKeys g := by
  rw [guardGet_none_iff] at h
  intro hmem
  rcases List.mem_map.mp hmem with ⟨p, hp, hfst⟩
  exact h p hp hfst

/-- `Map.has` is false when `Map.get` returns nothing. -/
theorem guardHas_eq_false {g : Guard} {tid : String}
    (h : guardGet g tid = none) : guardHas g tid = false := by
  rw [guardGet_none_iff] at h
  simp only [guardHas, List.any_eq_false]
  intro p hp
  simpa using h p hp

/-- `Map.set` on a fresh key appends the new entry. -/
theorem guardSet_fresh {g : Guard} {tid cid : String}
    (h : guardGet g tid = none) :
    guardSet g tid cid = g ++ [(tid, cid)] := by
  simp [guardSet, guardHas_eq_false h]

/-- Registering a fresh threadId keeps the guard keys duplicate-free. -/
theorem nodup_guardSet_fresh {g : Guard} {tid cid : String}
    (hn : (guardKeys g).Nodup) (h : guardGet g tid = none) :
    (guardKeys (guardSet g tid cid)).Nodup := by
  rw [guardSet_fresh h]
  have hkeys : guardKeys (g ++ [(tid, cid)]) = guardKeys g ++ [tid] := by
    simp [guardKeys]
  rw [hkeys]
  refine List.Nodup.append hn (List.nodup_singleton tid) ?_
  intro a ha hb
  rw [List.mem_singleton] at hb
  subst hb
  exact guardGet_none_not_mem h ha

/-- The hangup deletion only removes entries: its keys form a sublist. -/
theorem delete_keys_sublist (g : Guard) (cid : String) :
    List.Sublist (guardKeys (guardDeleteFirstByCall g cid)) (guardKeys g) := by
  induction g with
  | nil => simp [guardDeleteFirstByCall]
  | cons p rest ih =>
    obtain ⟨t, c⟩ := p
    by_cases hc : c == cid
    · simp only [guardDeleteFirstByCall, hc, if_pos, guardKeys, List.map_cons]
      exact List.sublist_cons_self _ _
    · simp [guardDeleteFirstByCall, hc, guardKeys]
      exact (by simpa [guardKeys] using ih)

/-- Every reachable guard state has duplicate-free threadId keys. -/
theorem reachable_guardKeys_nodup {g : Guard} (h : Reachable g) :
    (guardKeys g).Nodup := by
  induction h with
  | init => simp [guardKeys]
  | joinStep env body _ ih =>
    rcases joinHandler_guard_shape env _ body with heq | ⟨tid, cid, hfresh, _, heq⟩
    · rw [heq]; exact ih
    · rw [heq]; exact nodup_guardSet_fresh ih hfresh
  | hangupStep env cid _ ih =>
    rcases hangupHandler_guard_shape env _ cid with heq | ⟨_, heq⟩
    · rw [heq]; exact ih
    · rw [heq]; exact List.Nodup.sublist (delete_keys_sublist _ _) ih
  | getStateStep _ _ _ _ ih => exact ih
  | transcriptsStep _ _ ih => exact ih

/-- Duplicate-free keys bound the per-threadId entry count by one. -/
theorem nodup_filter_length_le_one {g : Guard}
    (hn : (guardKeys g).Nodup) (tid : String) :
    (g.filter (fun p => p.1 == tid)).length ≤ 1 := by
  induction g with
  | nil => simp
  | cons p rest ih =>
    have hcons : guardKeys (p :: rest) = p.1 :: guardKeys rest := by
      simp [guardKeys]
    rw [hcons, List.nodup_cons] at hn
    obtain ⟨hp, hrest⟩ := hn
    by_cases hc : p.1 == tid
    · have hnil : rest.filter (fun q => q.1 == tid) = [] := by
        rw [List.filter_eq_nil_iff]
        intro q hq habs
        apply hp
        have hq1 : q.1 = tid := by simpa using habs
        have hp1 : p.1 = tid := by simpa using hc
        rw [hp1, ← hq1]
        exact List.mem_map.mpr ⟨q, hq, rfl⟩
      simp [List.filter_cons, hc, hnil]
    · simp only [List.filter_cons, hc, if_neg, Bool.false_eq_true,
        not_false_iff]
      exact ih hrest

/-- C3: in every state reachable from the empty registry by any sequence
of join, getState, hangup and transcript operations, the guard holds at
most one entry per threadId. -/
theorem reachable_at_most_one_entry_per_thread (g : Guard)
    (h : Reachable g) (tid : String) :
    (g.filter (fun p => p.1 == tid)).length ≤ 1 :=
  nodup_filter_length_le_one (reachable_guardKeys_nodup h) tid

/-- Witness for C3: the initial empty registry. -/
theorem reachable_at_most_one_entry_per_thread_witness :
    ((([] : Guard)).filter (fun p => p.1 == "T1")).length ≤ 1 :=
  reachable_at_most_one_entry_per_thread [] Reachable.init "T1"

/-- The comparator order is reflexive. -/
theorem lexLe_refl (as : List Char) : lexLeChars as as = true := by
  induction as with
  | nil => rfl
  | cons a t ih => simp [lexLeChars, lt_irrefl, ih]

/-- The comparator order is total. -/
theorem lexLe_total (as bs : List Char) :
    lexLeChars as bs = true ∨ lexLeChars bs as = true := by
  induction as generalizing bs with
  | nil => exact Or.inl rfl
  | cons a as ih =>
    cases bs with
    | nil => exact Or.inr rfl
    | cons b bs =>
      by_cases hab : a < b
      · exact Or.inl (by simp [lexLeChars, hab])
      · by_cases hba : b < a
        · exact Or.inr (by simp [lexLeChars, hba])
        · rcases ih bs with h | h
          · exact Or.inl (by simp [lexLeChars, hab, hba, h])
          · exact Or.inr (by simp [lexLeChars, hab, hba, h])

/-- The comparator order is transitive. -/
theorem lexLe_trans (as bs cs : List Char)
    (h1 : lexLeChars as bs = true) (h2 : lexLeChars bs cs = true) :
    lexLeChars as cs = true := by
  induction as generalizing bs cs with
  | nil => rfl
  | cons a as ih =>
    cases bs with
    | nil => simp [lexLeChars] at h1
    | cons b bs =>
      cases cs with
      | nil => simp [lexLeChars] at h2
      | cons c cs =>
        by_cases hab : a < b
        · by_cases hbc : b < c
          · simp [lexLeChars, lt_trans hab hbc]
          · by_cases hcb : c < b
            · simp [lexLeChars, hbc, hcb] at h2
            · have hbc2 : b = c := le_antisymm (not_lt.mp hcb) (not_lt.mp hbc)
              subst hbc2
              simp [lexLeChars, hab]
        · by_cases hba : b < a
          · simp [lexLeChars, hab, hba] at h1
          · have hab2 : a = b := le_antisymm (not_lt.mp hba) (not_lt.mp hab)
            subst hab2
            simp only [lexLeChars, hab, lt_irrefl, if_false] at h1
            by_cases hac : a < c
            · simp [lexLeChars, hac]
            · by_cases hca : c < a
              · simp [lexLeChars, hac, hca] at h2
              · simp only [lexLeChars, hac, hca, if_false] at h2 ⊢
                exact ih bs cs h1 h2

/-- `keyLe` is reflexive. -/
theorem keyLe_refl (a : String) : keyLe a a = true := lexLe_refl a.data

/-- When `keyLe a b` fails, `keyLe b a` holds. -/
theorem keyLe_total_of_not {a b : String} (h : keyLe a b = false) :
    keyLe b a = true := by
  rcases lexLe_total a.data b.data with h2 | h2
  · rw [keyLe] at h; rw [h] at h2; exact absurd h2 (by simp)
  · exact h2

/-- `keyLe` is transitive. -/
theorem keyLe_trans {a b c : String} (h1 : keyLe a b = true)
    (h2 : keyLe b c = true) : keyLe a c = true :=
  lexLe_trans a.data b.data c.data h1 h2

/-- Nothing compares below the empty key. -/
theorem keyLe_empty_right {s : String} (h : keyLe s "" = true) : s = "" := by
  cases hs : s.data with
  | nil =>
    cases s with
    | mk data => simp at hs; subst hs; rfl
  | cons c t =>
    rw [keyLe, hs] at h
    simp [lexLeChars] at h

/-- Everything compares at or above the empty key. -/
theorem keyLe_empty_left (s : String) : keyLe "" s = true := rfl

/-- Membership in an insertion step. -/
theorem mem_insertAsc {y x : Transcript} {l : List Transcript} :
    y ∈ insertAsc x l ↔ y = x ∨ y ∈ l := by
  induction l with
  | nil => simp [insertAsc]
  | cons b t ih =>
    by_cases h : keyLe (tsKey x) (tsKey b)
    · simp [insertAsc, h]
    · simp [insertAsc, h, ih]
      tauto

/-- Insertion preserves sortedness. -/
theorem sorted_insertAsc {x : Transcript} {l : List Transcript}
    (hl : l.Pairwise RelTs) : (insertAsc x l).Pairwise RelTs := by
  induction l with
  | nil => simp [insertAsc, RelTs]
  | cons b t ih =>
    rw [List.pairwise_cons] at hl
    obtain ⟨hb, ht⟩ := hl
    by_cases h : keyLe (tsKey x) (tsKey b)
    · rw [insertAsc, if_pos h]
      refine List.Pairwise.cons ?_ (List.Pairwise.cons hb ht)
      intro y hy
      rcases List.mem_cons.mp hy with rfl | hy
      · exact h
      · exact keyLe_trans h (hb y hy)
    · rw [insertAsc, if_neg h]
      refine List.Pairwise.cons ?_ (ih ht)
      intro y hy
      rcases mem_insertAsc.mp hy with rfl | hy
      · exact keyLe_total_of_not (by simpa using h)
      · exact hb y hy

/-- The stable sort produces a sorted list. -/
theorem sorted_sortTranscripts (l : List Transcript) :
    (sortTranscripts l).Pairwise RelTs := by
  induction l with
  | nil => simp [sortTranscripts]
  | cons x xs ih => exact sorted_insertAsc ih

/-- `pop` of a non-empty cons skips the head. -/
theorem getLastOpt_cons_of_ne {b : Transcript} {l : List Transcript}
    (h : l ≠ []) : getLastOpt (b :: l) = getLastOpt l := by
  cases l with
  | nil => exact absurd rfl h
  | cons c t => rfl

/-- `pop` yields nothing exactly on the empty list. -/
theorem getLastOpt_eq_none_iff {l : List Transcript} :
    getLastOpt l = none ↔ l = [] := by
  induction l with
  | nil => simp [getLastOpt]
  | cons b t ih =>
    cases t with
    | nil => simp [getLastOpt]
    | cons c t2 =>
      rw [getLastOpt_cons_of_ne (by simp)]
      simp only [ih]
      simp

/-- The popped element is a member. -/
theorem getLastOpt_mem {l : List Transcript} {a : Transcript}
    (h : getLastOpt l = some a) : a ∈ l := by
  induction l with
  | nil => simp [getLastOpt] at h
  | cons b t ih =>
    cases t with
    | nil =>
      simp [getLastOpt] at h
      simp [h]
    | cons c t2 =>
      rw [getLastOpt_cons_of_ne (by simp)] at h
      exact List.mem_cons_of_mem b (ih h)

/-- Insertion never empties a list. -/
theorem insertAsc_ne_nil (x : Transcript) (l : List Transcript) :
    insertAsc x l ≠ [] := by
  cases l with
  | nil => simp [insertAsc]
  | cons b t =>
    rw [insertAsc]
    split <;> simp

/-- The last element after inserting into a sorted list: the new element
wins exactly when it is strictly above the previous last one (ties keep
the element already present). -/
theorem getLastOpt_insertAsc (x : Transcript) (l : List Transcript)
    (hl : l.Pairwise RelTs) :
    getLastOpt (insertAsc x l) =
      some (match getLastOpt l with
            | none => x
            | some m => if keyLe (tsKey x) (tsKey m) then m else x) := by
  induction l with
  | nil => rfl
  | cons b t ih =>
    rw [List.pairwise_cons] at hl
    obtain ⟨hb, ht⟩ := hl
    by_cases h : keyLe (tsKey x) (tsKey b)
    · rw [insertAsc, if_pos h]
      cases ho : getLastOpt (b :: t) with
      | none =>
        rw [getLastOpt_eq_none_iff] at ho
        exact absurd ho (by simp)
      | some m =>
        have hm := getLastOpt_mem ho
        have hxm : keyLe (tsKey x) (tsKey m) = true := by
          rcases List.mem_cons.mp hm with rfl | hm2
          · exact h
          · exact keyLe_trans h (hb m hm2)
        rw [getLastOpt_cons_of_ne (by simp), ho]
        simp [hxm]
    · rw [insertAsc, if_neg h]
      rw [getLastOpt_cons_of_ne (insertAsc_ne_nil x t), ih ht]
      cases t with
      | nil => simp [getLastOpt, h]
      | cons c t2 =>
        rw [getLastOpt_cons_of_ne
          (show (c :: t2 : List Transcript) ≠ [] from by simp)]

/-- The code's selection (stable sort ascending, take the last) equals the
last element of the original list attaining the maximal timestamp key. -/
theorem selectLatest_eq_pickLastMax (l : List Transcript) :
    selectLatest l = pickLastMax l := by
  induction l with
  | nil => rfl
  | cons x xs ih =>
    rw [selectLatest, sortTranscripts,
      getLastOpt_insertAsc x (sortTranscripts xs) (sorted_sortTranscripts xs)]
    rw [selectLatest] at ih
    rw [ih, pickLastMax]
    cases pickLastMax xs with
    | none => rfl
    | some m =>
      by_cases h : keyLe (tsKey x) (tsKey m) <;> simp [h]

/-- `pickLastMax` yields nothing only on the empty list. -/
theorem pickLastMax_eq_none {l : List Transcript}
    (h : pickLastMax l = none) : l = [] := by
  cases l with
  | nil => rfl
  | cons x xs =>
    rw [pickLastMax] at h
    split at h
    · simp at h
    · split at h <;> simp at h

/-- The selected transcript has the maximal key among all entries. -/
theorem pickLastMax_le {l : List Transcript} {t : Transcript}
    (h : pickLastMax l = some t) :
    ∀ u ∈ l, keyLe (tsKey u) (tsKey t) = true := by
  induction l generalizing t with
  | nil => simp [pickLastMax] at h
  | cons x xs ih =>
    rw [pickLastMax] at h
    cases hm : pickLastMax xs with
    | none =>
      rw [hm] at h
      have hx : x = t := by
        change some x = some t at h
        injection h
      subst hx
      have hxs := pickLastMax_eq_none hm
      subst hxs
      intro u hu
      rcases List.mem_cons.mp hu with rfl | hu
      · exact keyLe_refl _
      · simp at hu
    | some m =>
      rw [hm] at h
      by_cases hxm : keyLe (tsKey x) (tsKey m)
      · have h2 : some m = some t := by
          change (if keyLe (tsKey x) (tsKey m) = true then some m
                  else some x) = some t at h
          rwa [if_pos hxm] at h
        have hmt : m = t := by injection h2
        subst hmt
        intro u hu
        rcases List.mem_cons.mp hu with rfl | hu
        · exact hxm
        · exact ih hm u hu
      · have h2 : some x = some t := by
          change (if keyLe (tsKey x) (tsKey m) = true then some m
                  else some x) = some t at h
          rwa [if_neg hxm] at h
        have hxt : x = t := by injection h2
        subst hxt
        intro u hu
        rcases List.mem_cons.mp hu with rfl | hu
        · exact keyLe_refl _
        · exact keyLe_trans (ih hm u hu)
            (keyLe_total_of_not (by simpa using hxm))

/-- C9: the retriever selects the last element of the stable ascending sort
by creation timestamp compared as strings — equivalently, the last element
of the original list attaining the maximal timestamp; in particular, for
the timestamps 2024-01-01 / 2024-01-02 / 2024-01-02 in that order, the
third entry is chosen. -/
theorem transcript_selection_stable_last_max :
    (∀ l : List Transcript, selectLatest l = pickLastMax l) ∧
    selectLatest
        [⟨some "t1", some "2024-01-01T00:00:00Z"⟩,
         ⟨some "t2", some "2024-01-02T00:00:00Z"⟩,
         ⟨some "t3", some "2024-01-02T00:00:00Z"⟩] =
      some ⟨some "t3", some "2024-01-02T00:00:00Z"⟩ :=
  ⟨selectLatest_eq_pickLastMax, by decide⟩

/-- C10: an entry with a missing timestamp is compared as the empty string,
so it sorts at or below every entry, and it can be selected as the latest
transcript only when every entry in the list has the empty timestamp key
(that is, never while some timestamped entry exists). -/
theorem missing_timestamp_sorts_first_never_selected :
    (∀ a b : Transcript, a.createdDateTime = none →
      keyLe (tsKey a) (tsKey b) = true) ∧
    (∀ (l : List Transcript) (t : Transcript), selectLatest l = some t →
      tsKey t = "" → ∀ u ∈ l, tsKey u = "") := by
  constructor
  · intro a b ha
    rw [tsKey, ha]
    exact keyLe_empty_left _
  · intro l t hsel ht u hu
    rw [selectLatest_eq_pickLastMax] at hsel
    have := pickLastMax_le hsel u hu
    rw [ht] at this
    exact keyLe_empty_right this

/-- Witness for C10: a single-entry list whose transcript lacks a
timestamp; the selected entry forces every entry key to be empty. -/
theorem missing_timestamp_sorts_first_never_selected_witness :
    tsKey ⟨some "a", none⟩ = "" :=
  missing_timestamp_sorts_first_never_selected.2 [⟨some "a", none⟩]
    ⟨some "a", none⟩ rfl rfl ⟨some "a", none⟩ (List.mem_singleton.mpr rfl)
